import Mathlib

/-!
Verification development for the frame-cycling animation engine of
bunny-scroller (`src/web/AsciiBackground.tsx`).

Two display components are embedded:
- `AsciiBackground` (the spec's FrameCycler): advances through ordered
  sets of pre-rendered text frames, wrapping between sets.
- `ScrollingAscii` (the spec's ScrollLayer): cycles one flat frame list
  and selects a named CSS animation profile for horizontal scrolling.

React `useState` pairs are embedded as explicit state records, interval
callbacks as state-transition functions, and the DOM style registry as a
list of elements keyed by id.
-/

/-- `frameSets : string[][]` — an ordered sequence of frame sets, each an
ordered list of pre-rendered multiline text frames. -/
abbrev FrameSets := List (List String)

/-- The React state of `AsciiBackground`: `setIndex` and `frameIndex`
(`useState(0)` each), updated together by the interval callback. -/
structure CyclerState where
  setIndex : Nat
  frameIndex : Nat
deriving DecidableEq, Repr

/-- Length of the active frame set, `currentFrameSet.length` where
`currentFrameSet = frameSets[setIndex]` (empty when out of range). -/
def frameSetLen (frameSets : FrameSets) (s : Nat) : Nat :=
  (frameSets.getD s []).length

/-- One tick of the `AsciiBackground` interval callback:
`nextFrame = prevFrame + 1`; if `nextFrame >= currentFrameSet.length`
then `setIndex` becomes `(prevSet + 1) % frameSets.length` and
`frameIndex` resets to 0, otherwise `frameIndex` becomes `nextFrame`. -/
def cyclerTick (frameSets : FrameSets) (st : CyclerState) : CyclerState :=
  let nextFrame := st.frameIndex + 1
  if frameSetLen frameSets st.setIndex ≤ nextFrame then
    { setIndex := (st.setIndex + 1) % frameSets.length, frameIndex := 0 }
  else
    { st with frameIndex := nextFrame }

/-- Initial state at mount: both indices 0. -/
def cyclerInit : CyclerState := ⟨0, 0⟩

/-- The frame rendered into the `<pre>` element:
`frameSets[setIndex][frameIndex]` (`none` models `undefined`). -/
def displayedFrame (frameSets : FrameSets) (st : CyclerState) : Option String :=
  (frameSets.get? st.setIndex).bind fun fs => fs.get? st.frameIndex

/-- Every frame set in the collection is non-empty (the documented
caller precondition). -/
def AllNonempty (frameSets : FrameSets) : Prop :=
  ∀ fs ∈ frameSets, fs ≠ []

instance (frameSets : FrameSets) : Decidable (AllNonempty frameSets) :=
  List.decidableBAll _ frameSets

/-- The spec's AnimationState invariant: both indices in bounds. -/
def ValidState (frameSets : FrameSets) (st : CyclerState) : Prop :=
  st.setIndex < frameSets.length ∧
    st.frameIndex < frameSetLen frameSets st.setIndex

instance (frameSets : FrameSets) (st : CyclerState) :
    Decidable (ValidState frameSets st) :=
  instDecidableAnd

/-- Total number of frames across all sets, `sum(len(s) for s in frameSets)`. -/
def totalFrames (frameSets : FrameSets) : Nat :=
  (frameSets.map List.length).sum

/-- Under the documented precondition every active set is non-empty. -/
theorem frameSetLen_pos (frameSets : FrameSets) (hall : AllNonempty frameSets)
    (s : Nat) (hs : s < frameSets.length) : 0 < frameSetLen frameSets s := by
  have hget : frameSets.getD s [] = frameSets[s] := by
    simp [List.getD_eq_getElem?_getD, List.getElem?_eq_getElem hs]
  have hmember : frameSets[s] ∈ frameSets := List.getElem_mem hs
  have hne2 := hall _ hmember
  simp only [frameSetLen, hget]
  exact List.length_pos.mpr hne2

/-- C1: one tick increments `frameIndex`; reaching the active set's
length resets it to 0 and advances `setIndex` by one modulo the number
of sets, and that wrap is the only transition changing `setIndex`. -/
theorem cyclerTick_characterization (frameSets : FrameSets)
    (hne : frameSets ≠ []) (hall : AllNonempty frameSets)
    (st : CyclerState) (hv : ValidState frameSets st) :
    (frameSetLen frameSets st.setIndex ≤ st.frameIndex + 1 →
      cyclerTick frameSets st =
        ⟨(st.setIndex + 1) % frameSets.length, 0⟩) ∧
    (st.frameIndex + 1 < frameSetLen frameSets st.setIndex →
      cyclerTick frameSets st = ⟨st.setIndex, st.frameIndex + 1⟩) ∧
    ((cyclerTick frameSets st).setIndex ≠ st.setIndex →
      frameSetLen frameSets st.setIndex ≤ st.frameIndex + 1 ∧
        (cyclerTick frameSets st).frameIndex = 0) := by
  refine ⟨fun hwrap => ?_, fun hno => ?_, fun hchange => ?_⟩
  · simp [cyclerTick, hwrap]
  · simp [cyclerTick, Nat.not_le.mpr hno]
  · by_cases hwrap : frameSetLen frameSets st.setIndex ≤ st.frameIndex + 1
    · exact ⟨hwrap, by simp [cyclerTick, hwrap]⟩
    · exact absurd (show (cyclerTick frameSets st).setIndex = st.setIndex by
        simp [cyclerTick, hwrap]) hchange

/-- Witness for C1: `frameSets = [["A"], ["B", "C"]]` at state (0, 0). -/
theorem cyclerTick_characterization_witness :
    [["A"], ["B", "C"]] ≠ ([] : FrameSets) ∧
      AllNonempty [["A"], ["B", "C"]] ∧
      ValidState [["A"], ["B", "C"]] ⟨0, 0⟩ ∧
      (frameSetLen [["A"], ["B", "C"]] 0 ≤ 0 + 1 →
        cyclerTick [["A"], ["B", "C"]] ⟨0, 0⟩ = ⟨(0 + 1) % 2, 0⟩) := by
  refine ⟨by decide, by decide, by decide, ?_⟩
  have h := cyclerTick_characterization [["A"], ["B", "C"]]
    (by decide) (by decide) ⟨0, 0⟩ (by decide)
  simpa using h.1

/-- C5: the bounds invariant holds initially and is preserved by every
tick (both indices updated in one atomic transition). -/
theorem cycler_invariant (frameSets : FrameSets)
    (hne : frameSets ≠ []) (hall : AllNonempty frameSets) :
    ValidState frameSets cyclerInit ∧
      ∀ st : CyclerState, ValidState frameSets st →
        ValidState frameSets (cyclerTick frameSets st) := by
  have hn : 0 < frameSets.length := List.length_pos.mpr hne
  have hmem := frameSetLen_pos frameSets hall
  constructor
  · exact ⟨hn, hmem 0 hn⟩
  · rintro ⟨s, f⟩ ⟨hs, hf⟩
    by_cases hwrap : frameSetLen frameSets s ≤ f + 1
    · have hs2 : (s + 1) % frameSets.length < frameSets.length :=
        Nat.mod_lt _ hn
      exact ⟨by simpa [cyclerTick, hwrap] using hs2,
        by simpa [cyclerTick, hwrap] using hmem _ hs2⟩
    · exact ⟨by simpa [cyclerTick, hwrap] using hs,
        by simpa [cyclerTick, hwrap] using Nat.not_le.mp hwrap⟩

/-- Witness for C5: `frameSets = [["A"], ["B", "C"]]`, tick from (1, 1). -/
theorem cycler_invariant_witness :
    ValidState [["A"], ["B", "C"]] cyclerInit ∧
      ValidState [["A"], ["B", "C"]]
        (cyclerTick [["A"], ["B", "C"]] ⟨1, 1⟩) := by
  have h := cycler_invariant [["A"], ["B", "C"]] (by decide) (by decide)
  exact ⟨h.1, h.2 ⟨1, 1⟩ (by decide)⟩

/-- C9: with exactly one set holding exactly one frame, the state stays
(0, 0) after any number of ticks. -/
theorem cycler_singleton_fixed (x : String) (t : Nat) :
    (cyclerTick [[x]])^[t] cyclerInit = cyclerInit := by
  induction t with
  | zero => rfl
  | succ k ih =>
      rw [Function.iterate_succ_apply', ih]
      simp [cyclerTick, cyclerInit, frameSetLen]

/-- While `frameIndex + 1` stays below the active set's length, ticks
only step the frame index: `k` ticks from `(s, 0)` land on `(s, k)`. -/
theorem cycler_iterate_lt (frameSets : FrameSets) (s k : Nat)
    (hk : k < frameSetLen frameSets s) :
    (cyclerTick frameSets)^[k] ⟨s, 0⟩ = ⟨s, k⟩ := by
  induction k with
  | zero => rfl
  | succ m ih =>
      have hm : m < frameSetLen frameSets s := Nat.lt_of_succ_lt hk
      rw [Function.iterate_succ_apply', ih hm]
      have hlt : ¬ frameSetLen frameSets s ≤ m + 1 := Nat.not_le.mpr hk
      simp [cyclerTick, hlt]

/-- Playing a whole non-empty set from `(s, 0)` takes exactly its
length of ticks and lands on `((s + 1) % n, 0)`. -/
theorem cycler_iterate_set (frameSets : FrameSets) (s : Nat)
    (hpos : 0 < frameSetLen frameSets s) :
    (cyclerTick frameSets)^[frameSetLen frameSets s] ⟨s, 0⟩ =
      ⟨(s + 1) % frameSets.length, 0⟩ := by
  obtain ⟨m, hm⟩ := Nat.exists_eq_succ_of_ne_zero (Nat.pos_iff_ne_zero.mp hpos)
  rw [hm, Function.iterate_succ_apply',
    cycler_iterate_lt frameSets s m (by rw [hm]; exact Nat.lt_succ_self m)]
  have hwrap : frameSetLen frameSets s ≤ m + 1 := Nat.le_of_eq hm
  simp [cyclerTick, hwrap]

/-- After finishing the first `j` sets (their summed lengths of ticks)
the state sits at the start of set `j % n`. -/
theorem cycler_iterate_stages (frameSets : FrameSets)
    (hall : AllNonempty frameSets)
    (j : Nat) (hj : j ≤ frameSets.length) :
    (cyclerTick frameSets)^[((frameSets.map List.length).take j).sum]
        cyclerInit = ⟨j % frameSets.length, 0⟩ := by
  induction j with
  | zero => simp [cyclerInit]
  | succ m ih =>
      have hm : m < frameSets.length := Nat.lt_of_succ_le hj
      have hmlen : m < (frameSets.map List.length).length := by simpa using hm
      have hlm : (frameSets.map List.length)[m] = frameSetLen frameSets m := by
        simp [frameSetLen, List.getD_eq_getElem?_getD,
          List.getElem?_eq_getElem hm]
      rw [List.sum_take_succ _ m hmlen, hlm, Nat.add_comm,
        Function.iterate_add_apply, ih (Nat.le_of_lt hm),
        Nat.mod_eq_of_lt hm]
      exact cycler_iterate_set frameSets m (frameSetLen_pos frameSets hall m hm)

/-- C2: starting from (0, 0), after exactly `sum(len(s))` ticks the
state returns to (0, 0). -/
theorem cycler_full_cycle (frameSets : FrameSets)
    (hne : frameSets ≠ []) (hall : AllNonempty frameSets) :
    (cyclerTick frameSets)^[totalFrames frameSets] cyclerInit = cyclerInit := by
  have h := cycler_iterate_stages frameSets hall frameSets.length le_rfl
  have htake : (frameSets.map List.length).take frameSets.length =
      frameSets.map List.length := by
    rw [show frameSets.length = (frameSets.map List.length).length from
      (List.length_map _ _).symm, List.take_length]
  rw [htake] at h
  simpa [totalFrames, Nat.mod_self, cyclerInit] using h

/-- Witness for C2: `frameSets = [["A"], ["B", "C"]]`, 3 total frames. -/
theorem cycler_full_cycle_witness :
    ([["A"], ["B", "C"]] : FrameSets) ≠ [] ∧
      AllNonempty [["A"], ["B", "C"]] ∧
      (cyclerTick [["A"], ["B", "C"]])^[totalFrames [["A"], ["B", "C"]]]
        cyclerInit = cyclerInit :=
  ⟨by decide, by decide, cycler_full_cycle [["A"], ["B", "C"]] (by decide) (by decide)⟩

/-- The frame sets of the spec's worked scenario. -/
def exampleSets : FrameSets := [["A", "B"], ["C", "D", "E"]]

/-- C8: with `frameSets = [["A","B"], ["C","D","E"]]` the displayed
frames over successive ticks are A, B, C, D, E and the state sequence
is periodic with cycle length 5. -/
theorem cycler_example_sequence :
    ((List.range 5).map fun t =>
        displayedFrame exampleSets ((cyclerTick exampleSets)^[t] cyclerInit)) =
      [some "A", some "B", some "C", some "D", some "E"] ∧
    ∀ t : Nat, (cyclerTick exampleSets)^[t + 5] cyclerInit =
      (cyclerTick exampleSets)^[t] cyclerInit := by
  refine ⟨rfl, fun t => ?_⟩
  have h5 : (cyclerTick exampleSets)^[5] cyclerInit = cyclerInit := rfl
  rw [Function.iterate_add_apply, h5]

/-! ## ScrollLayer (`ScrollingAscii`) -/

/-- One tick of the `ScrollingAscii` interval callback on its single
`frameIndex` state: `(prev + 1) % frames.length`. -/
def scrollTick (frames : List String) (i : Nat) : Nat :=
  (i + 1) % frames.length

/-- Initial `frameIndex` at mount (`useState(0)`). -/
def scrollInit : Nat := 0

/-- The frame rendered into the `<pre>` element: `frames[frameIndex]`. -/
def scrollDisplayed (frames : List String) (i : Nat) : Option String :=
  frames.get? i

/-- C7: for non-empty `frames`, a tick is a plain modulo increment of
the single frame index: it wraps to 0 exactly when the end is reached,
steps by one otherwise, and always stays in bounds (no set index exists
to switch). -/
theorem scrollTick_mod_increment (frames : List String)
    (hne : frames ≠ []) (i : Nat) (hi : i < frames.length) :
    scrollTick frames i = (i + 1) % frames.length ∧
      scrollTick frames i < frames.length ∧
      (i + 1 = frames.length → scrollTick frames i = 0) ∧
      (i + 1 < frames.length → scrollTick frames i = i + 1) := by
  have hn : 0 < frames.length := List.length_pos.mpr hne
  refine ⟨rfl, Nat.mod_lt _ hn, fun hend => ?_, fun hlt => ?_⟩
  · simp [scrollTick, hend]
  · simp [scrollTick, Nat.mod_eq_of_lt hlt]

/-- Witness for C7: `frames = ["X", "Y"]` at index 1. -/
theorem scrollTick_mod_increment_witness :
    (["X", "Y"] : List String) ≠ [] ∧ 1 < (["X", "Y"] : List String).length ∧
      scrollTick ["X", "Y"] 1 = (1 + 1) % 2 :=
  ⟨by decide, by decide,
    (scrollTick_mod_increment ["X", "Y"] (by decide) 1 (by decide)).1⟩

/-- The values the `direction` prop of `ScrollingAscii` accepts, from
its declared union type `'left' | 'right'`. -/
def directionValues : List String := ["left", "right"]

/-- The default of the `direction` prop (`direction = 'right'`). -/
def defaultDirection : String := "right"

/-- The animation profile name used in the inline style,
`animation: scroll-${direction} ...`. -/
def scrollAnimationName (direction : String) : String :=
  "scroll-" ++ direction

/-- The keyframe profiles registered by the injected stylesheet
(`@keyframes scroll-right`, `@keyframes scroll-left`). -/
def registeredKeyframeNames : List String := ["scroll-right", "scroll-left"]

/-- Modelled from the spec: the direction vocabulary the spec states
for ScrollLayer — values {forward, reverse}, default forward. -/
def specDirectionValues : List String := ["forward", "reverse"]

/-- Modelled from the spec: the spec's stated default direction. -/
def specDefaultDirection : String := "forward"

/-- Counterexample to C3 as stated: the code's `direction` prop does
not accept the value "forward" and its default is "right", not
"forward". -/
theorem scroll_direction_claim_false :
    specDefaultDirection ∉ directionValues ∧
      defaultDirection ≠ specDefaultDirection ∧
      specDirectionValues ≠ directionValues := by
  refine ⟨by decide, by decide, by decide⟩

/-- C3 amended: `direction` is one of {left, right} with default
"right", and the named animation profile selected for the horizontal
position animation is `scroll-<direction>`, matching the given
direction and registered in the injected keyframes. -/
theorem scroll_direction_amended (d : String) (hd : d ∈ directionValues) :
    scrollAnimationName d = "scroll-" ++ d ∧
      scrollAnimationName d ∈ registeredKeyframeNames ∧
      defaultDirection ∈ directionValues ∧
      scrollAnimationName "left" ≠ scrollAnimationName "right" := by
  refine ⟨rfl, ?_, by decide, by decide⟩
  fin_cases hd <;> decide

/-- Witness for amended C3: the default direction "right". -/
theorem scroll_direction_amended_witness :
    defaultDirection ∈ directionValues ∧
      scrollAnimationName defaultDirection ∈ registeredKeyframeNames :=
  ⟨by decide, (scroll_direction_amended defaultDirection (by decide)).2.1⟩

/-! ## Keyframe registration (`document.head` style elements) -/

/-- A `<style>` element in the document, keyed by its `id`. -/
structure StyleElement where
  id : String
  textContent : String
deriving DecidableEq, Repr

/-- The fixed identifier used for registration, `styleId =
'ascii-scroll-keyframes'`. -/
def keyframesStyleId : String := "ascii-scroll-keyframes"

/-- The text injected into the created style element: the two
`@keyframes` profiles. -/
def keyframesText : String :=
  "@keyframes scroll-right \x7b from \x7b transform: translateX(-100%); \x7d " ++
    "to \x7b transform: translateX(100vw); \x7d \x7d " ++
    "@keyframes scroll-left \x7b from \x7b transform: translateX(100vw); \x7d " ++
    "to \x7b transform: translateX(-100%); \x7d \x7d"

/-- `document.getElementById`: first element with the given id, if any. -/
def getElementById (doc : List StyleElement) (i : String) : Option StyleElement :=
  doc.find? fun e => e.id == i

/-- The keyframe-injection effect of `ScrollingAscii` (run once per
mount, independent of all props): if no element with `styleId` exists,
create one and append it to the document head; otherwise do nothing. -/
def injectKeyframes (doc : List StyleElement) : List StyleElement :=
  match getElementById doc keyframesStyleId with
  | some _ => doc
  | none => doc ++ [⟨keyframesStyleId, keyframesText⟩]

/-- Number of elements registered under a given id. -/
def countById (doc : List StyleElement) (i : String) : Nat :=
  (doc.filter fun e => e.id == i).length

/-- An id is found exactly when some element carries it. -/
theorem getElementById_eq_none_iff (doc : List StyleElement) (i : String) :
    getElementById doc i = none ↔ countById doc i = 0 := by
  simp [getElementById, countById, List.find?_eq_none, List.length_eq_zero,
    List.filter_eq_nil_iff]

/-- Registering on a document that already holds the entry changes
nothing; registering on one without it adds exactly one entry. -/
theorem injectKeyframes_count (doc : List StyleElement) :
    countById (injectKeyframes doc) keyframesStyleId =
      max (countById doc keyframesStyleId) 1 := by
  by_cases h : getElementById doc keyframesStyleId = none
  · have h0 := (getElementById_eq_none_iff doc keyframesStyleId).mp h
    have happ : countById (doc ++ [⟨keyframesStyleId, keyframesText⟩])
        keyframesStyleId = countById doc keyframesStyleId + 1 := by
      simp [countById, List.filter_append]
    rw [injectKeyframes, h, happ, h0]
    decide
  · obtain ⟨e, he⟩ := Option.ne_none_iff_exists'.mp h
    have h1 : 1 ≤ countById doc keyframesStyleId :=
      Nat.one_le_iff_ne_zero.mpr fun hz =>
        h ((getElementById_eq_none_iff doc keyframesStyleId).mpr hz)
    rw [injectKeyframes, he]
    exact (Nat.max_eq_left h1).symm

/-- C4: mounting N ≥ 1 `ScrollingAscii` instances on a page with no
prior registration leaves exactly one registered keyframe definition;
registration is keyed by the fixed `styleId` and is a no-op when the
entry already exists. -/
theorem injectKeyframes_idempotent (doc : List StyleElement) (N : Nat)
    (hN : 1 ≤ N) (h0 : countById doc keyframesStyleId = 0) :
    countById (injectKeyframes^[N] doc) keyframesStyleId = 1 := by
  induction N with
  | zero => omega
  | succ m ih =>
      rw [Function.iterate_succ_apply']
      rcases Nat.eq_zero_or_pos m with hm | hm
      · subst hm
        simp only [Function.iterate_zero_apply]
        rw [injectKeyframes_count, h0]
        decide
      · rw [injectKeyframes_count, ih hm]
        decide

/-- Witness for C4: two mounts on an empty document register exactly
one entry. -/
theorem injectKeyframes_idempotent_witness :
    1 ≤ 2 ∧ countById [] keyframesStyleId = 0 ∧
      countById (injectKeyframes^[2] []) keyframesStyleId = 1 :=
  ⟨by decide, by decide, injectKeyframes_idempotent [] 2 (by decide) (by decide)⟩

/-! ## Timer lifecycle (`setInterval` / `clearInterval` / unmount) -/

/-- The host timer environment plus the observable animation state:
`activeTimers` holds the handles of registered intervals, `nextHandle`
generates fresh handles, and `mutationCount` counts the state mutations
performed by fired interval callbacks. -/
structure TimerWorld where
  activeTimers : List Nat
  nextHandle : Nat
  mutationCount : Nat
deriving DecidableEq, Repr

/-- Host `setInterval`: registers a recurring callback and returns its
fresh handle. -/
def hostSetInterval (w : TimerWorld) : Nat × TimerWorld :=
  (w.nextHandle,
    { w with activeTimers := w.nextHandle :: w.activeTimers,
             nextHandle := w.nextHandle + 1 })

/-- Host `clearInterval`: deregisters the handle; a cleared or unknown
handle is simply absent afterwards. -/
def hostClearInterval (h : Nat) (w : TimerWorld) : TimerWorld :=
  { w with activeTimers := w.activeTimers.filter fun x => x ≠ h }

/-- The host firing a timer: only a currently registered handle runs
its callback (one `setFrameIndex` state mutation); firing a cancelled
handle is a no-op. -/
def fireTimer (h : Nat) (w : TimerWorld) : TimerWorld :=
  if h ∈ w.activeTimers then { w with mutationCount := w.mutationCount + 1 }
  else w

/-- The interval effect shared by `AsciiBackground` and
`ScrollingAscii`: at mount, `const interval = setInterval(...)`. -/
def mountEffect (w : TimerWorld) : Nat × TimerWorld := hostSetInterval w

/-- The effect cleanup run at unmount, `() => clearInterval(interval)`
on the handle stored at mount. -/
def unmountCleanup (h : Nat) (w : TimerWorld) : TimerWorld :=
  hostClearInterval h w

/-- C6: after the unmount cleanup runs, the component's interval handle
is cancelled, and firing that handle any number of times afterwards
mutates nothing — the world (its mutation count included) is unchanged. -/
theorem unmount_stops_mutation (w : TimerWorld) :
    ((unmountCleanup (mountEffect w).1 (mountEffect w).2).activeTimers.count
        (mountEffect w).1 = 0) ∧
      ∀ k : Nat,
        (fireTimer (mountEffect w).1)^[k]
            (unmountCleanup (mountEffect w).1 (mountEffect w).2) =
          unmountCleanup (mountEffect w).1 (mountEffect w).2 := by
  constructor
  · simp [unmountCleanup, hostClearInterval, List.count_eq_zero,
      List.mem_filter]
  · have hmem : (mountEffect w).1 ∉
        (unmountCleanup (mountEffect w).1 (mountEffect w).2).activeTimers := by
      simp [unmountCleanup, hostClearInterval, List.mem_filter]
    have hfix : fireTimer (mountEffect w).1
        (unmountCleanup (mountEffect w).1 (mountEffect w).2) =
          unmountCleanup (mountEffect w).1 (mountEffect w).2 := by
      simp [fireTimer, hmem]
    intro k
    induction k with
    | zero => rfl
    | succ m ih => rw [Function.iterate_succ_apply', ih, hfix]

/-! ## Empty `frames` given to `ScrollingAscii` (JS number semantics) -/

/-- A JavaScript number as it arises in the frame-index computation:
either a natural index or `NaN`. -/
inductive JSNumber where
  | num (n : Nat)
  | nan
deriving DecidableEq, Repr

/-- JavaScript `+ 1`: `NaN` propagates. -/
def jsAddOne : JSNumber → JSNumber
  | .num n => .num (n + 1)
  | .nan => .nan

/-- JavaScript `%` with a natural divisor: any finite value mod 0 is
`NaN`, and `NaN` propagates. -/
def jsMod (x : JSNumber) (m : Nat) : JSNumber :=
  match x with
  | .num n => if m = 0 then .nan else .num (n % m)
  | .nan => .nan

/-- The `ScrollingAscii` tick at JavaScript-number precision:
`(prev + 1) % frames.length`. -/
def scrollTickJS (frames : List String) (i : JSNumber) : JSNumber :=
  jsMod (jsAddOne i) frames.length

/-- JavaScript array indexing: a valid natural index reads the element,
anything else (out of range or `NaN`) yields `undefined` (`none`) —
never an exception. -/
def jsIndex (frames : List String) : JSNumber → Option String
  | .num n => frames.get? n
  | .nan => none

/-- React rendering of `<pre>{frames[frameIndex]}</pre>`: an
`undefined` child renders as empty output, without throwing. -/
def renderFrameText (frame : Option String) : String :=
  frame.getD ""

/-- On natural indices into non-empty frames, the JS-precision tick
agrees with the Nat-precision one. -/
theorem scrollTickJS_agrees (frames : List String) (hne : frames ≠ [])
    (i : Nat) :
    scrollTickJS frames (.num i) = .num (scrollTick frames i) := by
  have hn : frames.length ≠ 0 := fun h => hne (List.length_eq_zero.mp h)
  simp [scrollTickJS, jsAddOne, jsMod, scrollTick, hn]

/-- C10: with empty `frames`, every tick computes `NaN` (in particular
the state is `NaN` after any first tick), indexing yields `undefined`,
and rendering stays total — empty output, no exception. -/
theorem scroll_empty_frames_total :
    (∀ i : JSNumber, scrollTickJS [] i = .nan) ∧
      (∀ k : Nat, (scrollTickJS [])^[k + 1] (.num 0) = .nan) ∧
      (∀ v : JSNumber, jsIndex [] v = none) ∧
      (∀ v : JSNumber, renderFrameText (jsIndex [] v) = "") := by
  have htick : ∀ i : JSNumber, scrollTickJS [] i = .nan := by
    rintro (n | _) <;> rfl
  have hidx : ∀ v : JSNumber, jsIndex [] v = none := by
    rintro (n | _) <;> simp [jsIndex]
  refine ⟨htick, fun k => ?_, hidx, fun v => by rw [hidx v]; rfl⟩
  rw [Function.iterate_succ_apply', htick]
